import Mathlib

/-!
Verification development for the multitrack audio recorder
(src/multitrack.cpp).  The definitions below are a shallow embedding of
the transport engine: the per-track monitor mix, the per-period play and
record loops, the WAV file open path, the arm-toggle commands and the
session configuration load/save code.  File contents are modelled as
lists of bytes (natural numbers below 256); the target platform of the
program is an ARM single-board computer, where the C type char is
unsigned, so file bytes read through char pointers are modelled as
unsigned byte values.  Machine 16-bit arithmetic is modelled on Int with
explicit reduction modulo 2 to the 16.
-/

/-! ## Constants (lines 46-57 of the source) -/

def SAMPLERATE : Int := 44100

def SAMPLESIZE : Nat := 2

def PERIOD_SIZE : Nat := 128

def MAX_TRACKS : Nat := 16

def RECORD_LATENCY : Int := 3000

def REPLAY_LATENCY : Int := 30000

def TC_STOP : Nat := 0

def TC_PLAY : Nat := 1

/-! ## 16-bit sample arithmetic -/

/-- Conversion of an integer to the int16 value with the same residue
modulo 2 to the 16, i.e. the effect of storing into an int16_t. -/
def wrap16 (z : Int) : Int := (z + 32768) % 65536 - 32768

/-- Conversion of a uint16 value to int16 (two's complement reading). -/
def int16OfU16 (n : Nat) : Int := wrap16 (n : Int)

/-- Arithmetic shift right by k bits of a signed value: floor division
by 2 to the k.  Models the expression nValue >> k on int16_t data. -/
def asr (v : Int) (k : Int) : Int := Int.fdiv v (2 ^ k.toNat)

/-! ## Track (source lines 68-99).  The fields mirror nMonMixA,
nMonMixB, bMute and bRecording; the attenuations are C ints. -/

structure Track where
  nMonMixA : Int
  nMonMixB : Int
  bMute : Bool
  bRecording : Bool
deriving DecidableEq

/-- Source lines 80-86: channel A contribution of a sample. -/
def Track.MixA (t : Track) (v : Int) : Int :=
  if t.bMute || t.bRecording || t.nMonMixA == 16 then 0 else asr v t.nMonMixA

/-- Source lines 92-98: channel B contribution of a sample. -/
def Track.MixB (t : Track) (v : Int) : Int :=
  if t.bMute || t.bRecording || t.nMonMixB == 16 then 0 else asr v t.nMonMixB

/-- g_track indexing; a C global array element that was never written
is zero-initialised. -/
def getTrack (l : List Track) (i : Nat) : Track := l.getD i ⟨0, 0, false, false⟩

/-! ## The mixer loop of Play (source lines 767-780).

The read buffer is a list of bytes of length nRead; the write buffer
g_pWriteBuffer is an array of 256 int16_t slots, modelled as a function
from slot index to value.  Source line 776 builds the little-endian
sample (on the target platform char is unsigned, so the low byte is
taken unsigned and the high byte shifted); lines 777-778 accumulate
the attenuated contributions into the int16_t write buffer, so every
addition is wrapped to int16 on store. -/

def readSampleU16 (buf : List Nat) (pos : Nat) : Nat :=
  (buf.getD pos 0 + 256 * buf.getD (pos + 1) 0) % 65536

/-- A single slot assignment in the write buffer. -/
def updf (f : Nat → Int) (j : Nat) (v : Int) : Nat → Int :=
  fun i => if i = j then v else f i

/-- The body of the channel loop at one frame offset nPos: the
contribution of channel c is added (with int16 wrap on store) to slots
nPos / channels and nPos / channels + 1. -/
def mixChannelStep (tracks : List Track) (buf : List Nat) (nPos channels : Nat)
    (out : Nat → Int) (c : Nat) : Nat → Int :=
  let s := int16OfU16 (readSampleU16 buf (nPos + SAMPLESIZE * c))
  let i := nPos / channels
  let o1 := updf out i (wrap16 (out i + (getTrack tracks c).MixA s))
  updf o1 (i + 1) (wrap16 (o1 (i + 1) + (getTrack tracks c).MixB s))

/-- The inner for loop over channels at one frame offset. -/
def mixFrame (tracks : List Track) (buf : List Nat) (channels : Nat)
    (out : Nat → Int) (nPos : Nat) : Nat → Int :=
  (List.range channels).foldl (mixChannelStep tracks buf nPos channels) out

/-- The outer for loop over frame offsets nPos = 0, fs, 2fs, ...,
counted down by the number of remaining iterations. -/
def playFrames (tracks : List Track) (buf : List Nat) (channels frameSize : Nat) :
    Nat → Nat → (Nat → Int) → (Nat → Int)
  | _, 0, out => out
  | nPos, k + 1, out =>
      playFrames tracks buf channels frameSize (nPos + frameSize) k
        (mixFrame tracks buf channels out nPos)

/-- Iteration count of the loop for nPos < nRead stepping by fs. -/
def cldiv (a b : Nat) : Nat := (a + b - 1) / b

/-- One period of the Play mix: the write buffer after the loop of
source lines 772-780, starting from the memset to zero at line 767. -/
def playMix (tracks : List Track) (buf : List Nat) (channels : Nat) : Nat → Int :=
  playFrames tracks buf channels (channels * SAMPLESIZE) 0
    (cldiv buf.length (channels * SAMPLESIZE)) (fun _ => 0)

/-- The chain of wrapped additions that the A slot of one frame goes
through, channel by channel. -/
def chainA (tracks : List Track) (buf : List Nat) (nPos : Nat) (cs : List Nat)
    (start : Int) : Int :=
  cs.foldl
    (fun a c => wrap16 (a + (getTrack tracks c).MixA
      (int16OfU16 (readSampleU16 buf (nPos + SAMPLESIZE * c))))) start

/-- The chain of wrapped additions for the B slot of one frame. -/
def chainB (tracks : List Track) (buf : List Nat) (nPos : Nat) (cs : List Nat)
    (start : Int) : Int :=
  cs.foldl
    (fun a c => wrap16 (a + (getTrack tracks c).MixB
      (int16OfU16 (readSampleU16 buf (nPos + SAMPLESIZE * c))))) start

/-- Modelled from the spec: clamping of a wide accumulator to int16 on
store, the saturation behaviour section 4.2 requires of the mixer. -/
def clamp16 (z : Int) : Int :=
  if z > 32767 then 32767 else if z < -32768 then -32768 else z

/-- Modelled from the spec: the A bus mix of one frame computed with a
wide (unwrapped) accumulator and a single saturating store. -/
def satMixA (tracks : List Track) (buf : List Nat) (nPos channels : Nat) : Int :=
  clamp16 ((List.range channels).foldl
    (fun a c => a + (getTrack tracks c).MixA
      (int16OfU16 (readSampleU16 buf (nPos + SAMPLESIZE * c)))) 0)

/-! ## Byte-level file primitives.

The project tape is a list of bytes.  pread models positional reads
(returning the available prefix, short at end of file); pwriteBytes
models positional writes of a byte run. -/

def pread (file : List Nat) (count off : Nat) : List Nat :=
  (file.drop off).take count

def pwriteBytes (file : List Nat) (data : List Nat) (off : Nat) : List Nat :=
  file.take off ++ data ++ file.drop (off + data.length)

/-! ## OpenFile (source lines 500-640).

The function reads the 12-byte RIFF preamble, then scans chunks.  Note
two faithful details of the source: the chunk size is read with the
expression (uint32_t)*(pBuffer + 4), a single byte dereference, and the
check for more than MAX_TRACKS channels at lines 561-564 has an empty
body, so an over-wide file is accepted.  The in-place header
normalisation of lines 578-628 moves bytes inside the file and is not
needed by any claim; only its resulting offsets are modelled. -/

def riffId : List Nat := [82, 73, 70, 70]

def waveId : List Nat := [87, 65, 86, 69]

def fmtId : List Nat := [102, 109, 116, 32]

def dataId : List Nat := [100, 97, 116, 97]

inductive OpenError
  | tooSmall
  | notRiff
  | notWave
  | fmtTooSmall
  | noHeader
deriving DecidableEq

structure OpenOk where
  channels : Nat
  sampleRate : Nat
  startOfData : Nat
  endOfData : Nat
  lastFrame : Nat
deriving DecidableEq

inductive OpenResult
  | ok (r : OpenOk)
  | err (e : OpenError)
deriving DecidableEq

/-- A little-endian 16-bit field of the header. -/
def readLE16 (file : List Nat) (off : Nat) : Nat :=
  file.getD off 0 + 256 * file.getD (off + 1) 0

/-- A little-endian 32-bit field of the header. -/
def readLE32 (file : List Nat) (off : Nat) : Nat :=
  readLE16 file off + 65536 * readLE16 file (off + 2)

/-- The chunk scan loop of source lines 544-636.  pos is the file
position of the next 8-byte chunk header; fmt holds the channel count
and sample rate captured from the fmt chunk (initially the stale
globals).  The fuel bounds the iteration count; each iteration advances
pos by at least 8, so file.length is always enough. -/
def scanChunks (file : List Nat) : Nat × Nat → Nat → Nat → OpenResult
  | _, _, 0 => .err .noHeader
  | fmt, pos, fuel + 1 =>
    if pos + 8 ≤ file.length then
      let ckId := (file.drop pos).take 4
      let nSize := file.getD (pos + 4) 0
      if ckId = fmtId then
        if pos + 8 + 16 ≤ file.length then
          let channels := readLE16 file (pos + 8 + 2)
          let rate := readLE32 file (pos + 8 + 4)
          scanChunks file (channels, rate) (pos + 8 + nSize) fuel
        else .err .fmtTooSmall
      else if ckId = dataId then
        let startOfData := pos + 8
        let endOfData := file.length
        let startOfData' := if startOfData ≠ 44 then 44 else startOfData
        let endOfData' :=
          if startOfData ≠ 44 then 44 + (endOfData - startOfData) else endOfData
        .ok ⟨fmt.1, fmt.2, startOfData',
          endOfData', (endOfData' - startOfData') / (fmt.1 * SAMPLESIZE)⟩
      else
        scanChunks file fmt (pos + 8 + nSize) fuel
    else .err .noHeader

/-- OpenFile on the bytes of an (already opened or freshly created)
file.  An absent project file is created empty by O_CREAT, so the
absent case is openFile applied to the empty list.  The globals
g_nChannels and g_nSamplerate hold 16 and 44100 when LoadProject first
calls OpenFile. -/
def openFile (file : List Nat) : OpenResult :=
  if file.length < 12 then .err .tooSmall
  else if file.take 4 ≠ riffId then .err .notRiff
  else if (file.drop 8).take 4 ≠ waveId then .err .notWave
  else scanChunks file (MAX_TRACKS, 44100) 12 file.length

/-! ## Head positioning and the play-side file read. -/

/-- SetPlayHead (source lines 658-668): the two sequential clamping
ifs applied to the requested position. -/
def setPlayHead (lastFrame pos : Int) : Int :=
  let p := pos
  let p := if p < 0 then 0 else p
  if p > lastFrame then lastFrame else p

/-- The byte count returned by the read of one period at source line
768 when the file position is pos. -/
def playNRead (file : List Nat) (pos periodSize : Nat) : Nat :=
  ((file.drop pos).take periodSize).length

/-- Source line 785: the head advances by a whole period whenever the
read returned any bytes. -/
def playAdvanceHead (head : Int) (nRead : Nat) : Int :=
  if 0 < nRead then head + (PERIOD_SIZE : Int) else head

/-- The head after one Play period started from a freshly seeked head
position (file position startOfData + head * frameSize). -/
def playStepHead (file : List Nat) (startOfData frameSize : Nat) (head : Int)
    (periodSize : Nat) : Int :=
  playAdvanceHead head
    (playNRead file (startOfData + (head * (frameSize : Int)).toNat) periodSize)

/-- g_nLastFrame as recomputed from the data offsets (C int division
truncates). -/
def lastFrameOf (endOfData startOfData frameSize : Int) : Int :=
  Int.tdiv (endOfData - startOfData) frameSize

/-! ## Transport engine state.

The subset of the process globals that the transport commands and the
record path touch.  pcmRecordOpen and pcmPlayOpen model the device
handles being non-null; recordDeviceOk and replayDeviceOk model whether
an ALSA open would succeed. -/

structure MTState where
  transport : Nat
  recordEnabled : Bool
  recA : Int
  recB : Int
  tracks : List Track
  channels : Nat
  pcmRecordOpen : Bool
  pcmPlayOpen : Bool
  recordDeviceOk : Bool
  replayDeviceOk : Bool
  fdWaveOpen : Bool
  headPos : Int
  lastFrame : Int
  recordOffset : Int
  startOfData : Int
  endOfData : Int
  frameSize : Nat
deriving DecidableEq

/-- Setting the bRecording flag of track i. -/
def setRecording (tracks : List Track) (i : Int) (v : Bool) : List Track :=
  tracks.set i.toNat { getTrack tracks i.toNat with bRecording := v }

/-- CloseRecord (source lines 747-758): the handle is cleared and the
recording flags of the armed tracks are dropped. -/
def closeRecord (s : MTState) : MTState :=
  let s1 := { s with pcmRecordOpen := false }
  let s2 :=
    if s1.recA > -1 then { s1 with tracks := setRecording s1.tracks s1.recA false }
    else s1
  if s2.recB > -1 then { s2 with tracks := setRecording s2.tracks s2.recB false }
  else s2

/-- CloseReplay (source lines 701-709): the handle is cleared and, when
record mode is off, the transport drops to STOP. -/
def closeReplay (s : MTState) : MTState :=
  let s1 := { s with pcmPlayOpen := false }
  if ¬ s1.recordEnabled then { s1 with transport := TC_STOP } else s1

/-- OpenRecord (source lines 712-744), returning the new state and the
success flag; on success the armed tracks get their recording flag. -/
def openRecord (s : MTState) : MTState × Bool :=
  if s.pcmRecordOpen then (s, true)
  else if s.recordDeviceOk then
    let s1 := { s with pcmRecordOpen := true }
    let s2 :=
      if s1.recA > -1 then { s1 with tracks := setRecording s1.tracks s1.recA true }
      else s1
    let s3 :=
      if s2.recB > -1 then { s2 with tracks := setRecording s2.tracks s2.recB true }
      else s2
    (s3, true)
  else (closeRecord s, false)

/-- OpenReplay (source lines 671-698): on failure CloseReplay runs. -/
def openReplay (s : MTState) : MTState × Bool :=
  if s.pcmPlayOpen then (s, true)
  else if s.replayDeviceOk then ({ s with pcmPlayOpen := true }, true)
  else (closeReplay s, false)

/-- The a key (source lines 369-386): toggle recording of the A input
on the currently selected track. -/
def toggleRecA (s : MTState) (sel : Int) : MTState :=
  let s1 :=
    if s.recA = sel then
      { s with tracks := setRecording s.tracks s.recA false, recA := -1 }
    else
      let sa :=
        if s.recA > -1 then { s with tracks := setRecording s.tracks s.recA false }
        else s
      let sb := { sa with recA := sel }
      if sb.pcmRecordOpen then { sb with tracks := setRecording sb.tracks sb.recA true }
      else sb
  if s1.recA = -1 ∧ s1.recB = -1 then closeRecord s1 else s1

/-- The b key (source lines 387-404). -/
def toggleRecB (s : MTState) (sel : Int) : MTState :=
  let s1 :=
    if s.recB = sel then
      { s with tracks := setRecording s.tracks s.recB false, recB := -1 }
    else
      let sa :=
        if s.recB > -1 then { s with tracks := setRecording s.tracks s.recB false }
        else s
      let sb := { sa with recB := sel }
      if sb.pcmRecordOpen then { sb with tracks := setRecording sb.tracks sb.recB true }
      else sb
  if s1.recA = -1 ∧ s1.recB = -1 then closeRecord s1 else s1

/-- An arm command: the key pressed together with the track selected at
that moment (selection moves are clamped to the channel range by the
KEY_UP and KEY_DOWN handlers). -/
inductive ArmCmd
  | armA (sel : Int)
  | armB (sel : Int)
deriving DecidableEq

def applyArm (s : MTState) : ArmCmd → MTState
  | .armA sel => toggleRecA s sel
  | .armB sel => toggleRecB s sel

def runArms (s : MTState) (cmds : List ArmCmd) : MTState :=
  cmds.foldl applyArm s

def ArmCmd.sel : ArmCmd → Int
  | .armA t => t
  | .armB t => t

/-- The space key (source lines 417-439): start from STOP, stop from
PLAY.  The PLAY branch closes replay, drops to STOP, clears record
enable, closes record and recomputes the last frame. -/
def handleSpace (s : MTState) : MTState :=
  if s.transport = TC_STOP then
    let (s1, ok) := openReplay s
    let s2 := if ok then { s1 with transport := TC_PLAY } else s1
    let s3 :=
      if ¬ s2.recordEnabled ∧ s2.headPos ≥ s2.lastFrame then { s2 with headPos := 0 }
      else s2
    { s3 with headPos := setPlayHead s3.lastFrame s3.headPos }
  else if s.transport = TC_PLAY then
    let s1 := closeReplay s
    let s2 := { s1 with transport := TC_STOP }
    let s3 := { s2 with recordEnabled := false }
    let s4 := closeRecord s3
    { s4 with lastFrame := lastFrameOf s4.endOfData s4.startOfData (s4.frameSize : Int) }
  else s

/-! ## The record path (source lines 815-888).

Two faithful details: the extension write at line 833 appends one
period of silence at g_offEndOfData, and the B-leg copy at line 882
computes its destination from g_nRecA (not g_nRecB), so the B capture
bytes land two bytes after the A column. -/

/-- memcpy of SAMPLESIZE = 2 bytes. -/
def copy2 (dst src : List Nat) (dstOff srcOff : Nat) : List Nat :=
  (dst.set dstOff (src.getD srcOff 0)).set (dstOff + 1) (src.getD (srcOff + 1) 0)

/-- The loop body of source lines 872-886 for one sample index. -/
def overdubSample (buf cap : List Nat) (recA recB : Int) (frameSize i : Nat) :
    List Nat :=
  let b1 :=
    if recA ≠ -1 then
      copy2 buf cap ((i : Int) * (frameSize : Int) + recA * (SAMPLESIZE : Int)).toNat
        (i * 4)
    else buf
  if recB ≠ -1 then
    copy2 b1 cap
      ((2 : Int) + (i : Int) * (frameSize : Int) + recA * (SAMPLESIZE : Int)).toNat
      (2 + i * 4)
  else b1

/-- The overdub read-modify loop over the 128 samples of a period. -/
def overdubPeriod (buf cap : List Nat) (recA recB : Int) (frameSize : Nat) :
    List Nat :=
  (List.range PERIOD_SIZE).foldl
    (fun b i => overdubSample b cap recA recB frameSize i) buf

/-- Record (source lines 815-888) restricted to its effect on the file
bytes; cap is the interleaved stereo capture buffer of the period. -/
def recordStep (s : MTState) (file cap : List Nat) : List Nat :=
  if s.transport ≠ TC_PLAY then file
  else if ¬ s.recordEnabled then file
  else if ¬ s.fdWaveOpen then file
  else if s.recA = -1 ∧ s.recB = -1 then file
  else if s.headPos < s.recordOffset then file
  else if ¬ s.pcmRecordOpen ∧ ¬ s.recordDeviceOk then file
  else
    let periodSize := s.frameSize * PERIOD_SIZE
    let file1 :=
      if s.headPos ≥ s.lastFrame then
        pwriteBytes file (List.replicate periodSize 0) s.endOfData.toNat
      else file
    let offRewrite :=
      (s.startOfData + (s.headPos - s.recordOffset) * (s.frameSize : Int)).toNat
    let readBuf := pread file1 periodSize offRewrite
    let nRead := readBuf.length
    let buf2 := overdubPeriod readBuf cap s.recA s.recB s.frameSize
    pwriteBytes file1 (buf2.take nRead) offRewrite

/-! ## Session configuration (source lines 891-1006).

Config files are lists of lines; a line is a list of bytes.  SaveProject
(lines 979-1006) writes, for each track in index order, the NNL, NNR and
NNM lines, then the Pos line; the Rof line is formatted into the buffer
at line 999 but its fputs at line 1000 is commented out, so no Rof line
is written.  LoadProject (lines 912-946) parses lines, then calls
SetPlayHead on the parsed position and finally overwrites the record
offset with the value recomputed from the declared latencies. -/

/-- Decimal digit bytes of n, most significant first; the fuel exceeds
the value so the recursion always completes. -/
def natDecAux : Nat → Nat → List Nat
  | 0, _ => []
  | fuel + 1, n =>
    if n < 10 then [48 + n] else natDecAux fuel (n / 10) ++ [48 + n % 10]

def natDec (n : Nat) : List Nat := natDecAux (n + 1) n

/-- The bytes printf %d produces for an int. -/
def intDec (v : Int) : List Nat :=
  if v < 0 then 45 :: natDec (-v).toNat else natDec v.toNat

/-- The bytes printf %02d produces for 0 <= i < 100. -/
def fmt2 (i : Nat) : List Nat := [48 + i / 10, 48 + i % 10]

def isDigitByte (b : Nat) : Bool := 48 ≤ b && b ≤ 57

def isSpaceByte (b : Nat) : Bool := b == 32 || (9 ≤ b && b ≤ 13)

def atoiDigits : Int → List Nat → Int
  | acc, [] => acc
  | acc, b :: rest =>
    if isDigitByte b then atoiDigits (acc * 10 + ((b : Int) - 48)) rest else acc

def skipSpaces : List Nat → List Nat
  | [] => []
  | b :: rest => if isSpaceByte b then skipSpaces rest else b :: rest

/-- The C library atoi on a byte sequence. -/
def atoi (l : List Nat) : Int :=
  match skipSpaces l with
  | [] => 0
  | b :: rest =>
    if b = 45 then - atoiDigits 0 rest
    else if b = 43 then atoiDigits 0 rest
    else atoiDigits 0 (b :: rest)

def lineL (i : Nat) (t : Track) : List Nat :=
  fmt2 i ++ [76, 61] ++ intDec t.nMonMixA ++ [10]

def lineR (i : Nat) (t : Track) : List Nat :=
  fmt2 i ++ [82, 61] ++ intDec t.nMonMixB ++ [10]

def lineM (i : Nat) (t : Track) : List Nat :=
  fmt2 i ++ [77, 61] ++ (if t.bMute then [49, 10] else [48, 10])

def posKey : List Nat := [80, 111, 115, 61]

def rofKey : List Nat := [82, 111, 102, 61]

/-- The three per-track lines of the save loop, for tracks ts numbered
from i upward. -/
def trackLines : Nat → List Track → List (List Nat)
  | _, [] => []
  | i, t :: ts => lineL i t :: lineR i t :: lineM i t :: trackLines (i + 1) ts

/-- The full line list SaveProject writes: all tracks in index order,
then the Pos line.  The Rof write is commented out in the source. -/
def saveLines (tracks : List Track) (headPos : Int) : List (List Nat) :=
  trackLines 0 tracks ++ [posKey ++ intDec headPos ++ [10]]

/-- The configuration-backed globals LoadProject mutates. -/
structure Cfg where
  tracks : List Track
  headPos : Int
  recordOffset : Int
deriving DecidableEq

/-- The body of the line loop of LoadProject (source lines 916-941). -/
def parseLine (channels : Nat) (cfg : Cfg) (line : List Nat) : Cfg :=
  if line.length < 5 then cfg
  else
    let nChannel : Int :=
      ((line.getD 0 0 : Int) - 48) * 10 + ((line.getD 1 0 : Int) - 48)
    let cfg1 :=
      if 0 ≤ nChannel ∧ nChannel < (channels : Int) then
        let i := nChannel.toNat
        if line.getD 2 0 = 76 then
          let t := { getTrack cfg.tracks i with nMonMixA := atoi (line.drop 4) }
          { cfg with tracks := cfg.tracks.set i t }
        else if line.getD 2 0 = 82 then
          let t := { getTrack cfg.tracks i with nMonMixB := atoi (line.drop 4) }
          { cfg with tracks := cfg.tracks.set i t }
        else if line.getD 2 0 = 77 then
          let t := { getTrack cfg.tracks i with bMute := line.getD 4 0 = 49 }
          { cfg with tracks := cfg.tracks.set i t }
        else cfg
      else cfg
    let cfg2 :=
      if line.take 4 = posKey then { cfg1 with headPos := atoi (line.drop 4) }
      else cfg1
    if line.take 4 = rofKey then { cfg2 with recordOffset := atoi (line.drop 4) }
    else cfg2

def loadLines (channels : Nat) (cfg : Cfg) (lines : List (List Nat)) : Cfg :=
  lines.foldl (parseLine channels) cfg

/-- The record offset LoadProject recomputes at source line 946. -/
def computedRecordOffset : Int :=
  Int.tdiv (SAMPLERATE * (RECORD_LATENCY + REPLAY_LATENCY)) 1000000

/-- LoadProject restricted to the configuration-backed globals:
parse every line, clamp the head with SetPlayHead (line 944), then
overwrite the record offset (line 946). -/
def loadProjectCfg (channels : Nat) (lastFrame : Int) (cfg0 : Cfg)
    (lines : List (List Nat)) : Cfg :=
  let c := loadLines channels cfg0 lines
  { c with headPos := setPlayHead lastFrame c.headPos,
           recordOffset := computedRecordOffset }

/-- The in-memory values of the recognised per-track config keys. -/
def cfgKeys (t : Track) : Int × Int × Bool := (t.nMonMixA, t.nMonMixB, t.bMute)

/-! ## Concrete inputs used by the closed theorems below. -/

/-- A four-channel project file: 44 header bytes then two frames. -/
def fileC1 : List Nat :=
  List.replicate 44 0 ++ [1, 2, 3, 4, 5, 6, 7, 8, 9, 10, 11, 12, 13, 14, 15, 16]

/-- One period of capture with distinct bytes in the first samples. -/
def capC1 : List Nat := [100, 101, 102, 103, 110, 111, 112, 113]

/-- Transport state in PLAY, record enabled, A input armed on track 0
and B input armed on track 2, head at the record offset. -/
def stateC1 : MTState :=
  { transport := TC_PLAY, recordEnabled := true, recA := 0, recB := 2,
    tracks := List.replicate 4 ⟨0, 0, false, false⟩, channels := 4,
    pcmRecordOpen := true, pcmPlayOpen := true, recordDeviceOk := true,
    replayDeviceOk := true, fdWaveOpen := true, headPos := 0, lastFrame := 2,
    recordOffset := 0, startOfData := 44, endOfData := 60, frameSize := 8 }

/-- Two unmuted unity-gain tracks. -/
def tracksC2 : List Track := [⟨0, 0, false, false⟩, ⟨0, 0, false, false⟩]

/-- One two-channel frame whose samples are both 16384. -/
def bufC2 : List Nat := [0, 64, 0, 64]

/-- Track 0 panned fully to bus A, track 1 fully to bus B. -/
def tracksC3 : List Track := [⟨0, 16, false, false⟩, ⟨16, 0, false, false⟩]

/-- A 44-byte WAV header declaring 17 channels and an empty data
chunk. -/
def wav17 : List Nat :=
  riffId ++ [36, 0, 0, 0] ++ waveId ++
  fmtId ++ [16, 0, 0, 0] ++
  [1, 0] ++ [17, 0] ++ [68, 172, 0, 0] ++ [8, 225, 22, 0] ++ [34, 0] ++ [16, 0] ++
  dataId ++ [0, 0, 0, 0]

/-- A one-channel file of 100 frames (44 header bytes + 200 data
bytes): its frame count is not a multiple of the period size. -/
def fileC8 : List Nat := List.replicate 244 0

/-- A sixteen-track session in STOP with nothing armed. -/
def armState0 : MTState :=
  { transport := TC_STOP, recordEnabled := false, recA := -1, recB := -1,
    tracks := List.replicate 16 ⟨0, 0, false, false⟩, channels := 16,
    pcmRecordOpen := false, pcmPlayOpen := false, recordDeviceOk := true,
    replayDeviceOk := true, fdWaveOpen := true, headPos := 0, lastFrame := 0,
    recordOffset := 1455, startOfData := 44, endOfData := 44, frameSize := 32 }

/-- Copying the three config-backed fields of a parsed track onto an
existing track (the recording flag is not config-backed). -/
def putCfg (old t : Track) : Track :=
  { old with nMonMixA := t.nMonMixA, nMonMixB := t.nMonMixB, bMute := t.bMute }

/-- The accumulated effect on the track table of parsing the saved
per-track lines for tracks ts numbered from i upward. -/
def overwriteCfg : List Track → Nat → List Track → List Track
  | l, _, [] => l
  | l, i, t :: ts => overwriteCfg (l.set i (putCfg (getTrack l i) t)) (i + 1) ts

/-! ## Lemmas: 16-bit wrap -/

theorem wrap16_lb (z : Int) : -32768 ≤ wrap16 z := by
  have h := Int.emod_nonneg (z + 32768) (show (65536 : Int) ≠ 0 by norm_num)
  unfold wrap16
  omega

theorem wrap16_ub (z : Int) : wrap16 z < 32768 := by
  have h := Int.emod_lt_of_pos (z + 32768) (show (0 : Int) < 65536 by norm_num)
  unfold wrap16
  omega

theorem wrap16_eq_self (z : Int) (h1 : -32768 ≤ z) (h2 : z < 32768) :
    wrap16 z = z := by
  unfold wrap16
  rw [Int.emod_eq_of_lt (by omega) (by omega)]
  omega

theorem wrap16_wrap16 (z : Int) : wrap16 (wrap16 z) = wrap16 z :=
  wrap16_eq_self _ (wrap16_lb z) (wrap16_ub z)

/-! ## Lemmas: write buffer slots -/

theorem updf_same (f : Nat → Int) (j : Nat) (v : Int) : updf f j v j = v := by
  simp [updf]

theorem updf_ne (f : Nat → Int) (j : Nat) (v : Int) (i : Nat) (h : i ≠ j) :
    updf f j v i = f i := by
  simp [updf, h]

/-! ## Lemmas: the mixer loop -/

theorem foldl_mixChannelStep_ne (tracks : List Track) (buf : List Nat)
    (nPos channels : Nat) (j : Nat) (h1 : j ≠ nPos / channels)
    (h2 : j ≠ nPos / channels + 1) :
    ∀ (cs : List Nat) (out : Nat → Int),
      (cs.foldl (mixChannelStep tracks buf nPos channels) out) j = out j := by
  intro cs
  induction cs with
  | nil => intro out; rfl
  | cons c cs ih =>
    intro out
    rw [List.foldl_cons, ih]
    simp only [mixChannelStep]
    rw [updf_ne _ _ _ _ h2, updf_ne _ _ _ _ h1]

theorem mixFrame_ne (tracks : List Track) (buf : List Nat) (channels : Nat)
    (out : Nat → Int) (nPos j : Nat) (h1 : j ≠ nPos / channels)
    (h2 : j ≠ nPos / channels + 1) :
    mixFrame tracks buf channels out nPos j = out j :=
  foldl_mixChannelStep_ne tracks buf nPos channels j h1 h2 _ out

theorem foldl_mixChannelStep_val (tracks : List Track) (buf : List Nat)
    (nPos channels : Nat) :
    ∀ (cs : List Nat) (out : Nat → Int),
      (cs.foldl (mixChannelStep tracks buf nPos channels) out) (nPos / channels)
          = chainA tracks buf nPos cs (out (nPos / channels))
        ∧ (cs.foldl (mixChannelStep tracks buf nPos channels) out)
            (nPos / channels + 1)
          = chainB tracks buf nPos cs (out (nPos / channels + 1)) := by
  intro cs
  induction cs with
  | nil => intro out; exact ⟨rfl, rfl⟩
  | cons c cs ih =>
    intro out
    rw [List.foldl_cons]
    rcases ih (mixChannelStep tracks buf nPos channels out c) with ⟨ha, hb⟩
    constructor
    · rw [ha]
      simp only [mixChannelStep, chainA, List.foldl_cons]
      rw [updf_ne _ _ _ _ (by omega), updf_same]
    · rw [hb]
      simp only [mixChannelStep, chainB, List.foldl_cons]
      rw [updf_same, updf_ne _ _ _ _ (by omega)]

theorem mixFrame_valA (tracks : List Track) (buf : List Nat) (channels : Nat)
    (out : Nat → Int) (nPos : Nat) :
    mixFrame tracks buf channels out nPos (nPos / channels)
      = chainA tracks buf nPos (List.range channels) (out (nPos / channels)) :=
  (foldl_mixChannelStep_val tracks buf nPos channels _ out).1

theorem mixFrame_valB (tracks : List Track) (buf : List Nat) (channels : Nat)
    (out : Nat → Int) (nPos : Nat) :
    mixFrame tracks buf channels out nPos (nPos / channels + 1)
      = chainB tracks buf nPos (List.range channels) (out (nPos / channels + 1)) :=
  (foldl_mixChannelStep_val tracks buf nPos channels _ out).2

theorem div_step (nPos channels : Nat) (hch : 0 < channels) :
    (nPos + channels * SAMPLESIZE) / channels = nPos / channels + 2 := by
  have h := Nat.add_mul_div_left nPos 2 hch
  simpa [SAMPLESIZE] using h

theorem playFrames_succ (tracks : List Track) (buf : List Nat)
    (channels frameSize nPos k : Nat) (out : Nat → Int) :
    playFrames tracks buf channels frameSize nPos (k + 1) out
      = playFrames tracks buf channels frameSize (nPos + frameSize) k
          (mixFrame tracks buf channels out nPos) := rfl

theorem playFrames_below (tracks : List Track) (buf : List Nat) (channels : Nat)
    (hch : 0 < channels) :
    ∀ (k nPos : Nat) (out : Nat → Int) (j : Nat), j < nPos / channels →
      playFrames tracks buf channels (channels * SAMPLESIZE) nPos k out j = out j := by
  intro k
  induction k with
  | zero => intro nPos out j _; rfl
  | succ k ih =>
    intro nPos out j hj
    rw [playFrames_succ]
    rw [ih (nPos + channels * SAMPLESIZE) _ j
        (by rw [div_step nPos channels hch]; omega)]
    exact mixFrame_ne tracks buf channels out nPos j (by omega) (by omega)

theorem playFrames_val (tracks : List Track) (buf : List Nat) (channels : Nat)
    (hch : 0 < channels) :
    ∀ (k j nPos : Nat) (out : Nat → Int), j < k →
      (playFrames tracks buf channels (channels * SAMPLESIZE) nPos k out)
          (nPos / channels + 2 * j)
        = chainA tracks buf (nPos + j * (channels * SAMPLESIZE))
            (List.range channels) (out (nPos / channels + 2 * j))
      ∧ (playFrames tracks buf channels (channels * SAMPLESIZE) nPos k out)
          (nPos / channels + 2 * j + 1)
        = chainB tracks buf (nPos + j * (channels * SAMPLESIZE))
            (List.range channels) (out (nPos / channels + 2 * j + 1)) := by
  intro k
  induction k with
  | zero => intro j nPos out hj; omega
  | succ k ih =>
    intro j nPos out hj
    rw [playFrames_succ]
    match j with
    | 0 =>
      constructor
      · rw [playFrames_below tracks buf channels hch k _ _ _
            (by rw [div_step nPos channels hch]; omega)]
        simpa using mixFrame_valA tracks buf channels out nPos
      · rw [playFrames_below tracks buf channels hch k _ _ _
            (by rw [div_step nPos channels hch]; omega)]
        simpa using mixFrame_valB tracks buf channels out nPos
    | j' + 1 =>
      have hidx : (nPos + channels * SAMPLESIZE) / channels + 2 * j'
          = nPos / channels + 2 * (j' + 1) := by
        rw [div_step nPos channels hch]; omega
      have hpos : (nPos + channels * SAMPLESIZE) + j' * (channels * SAMPLESIZE)
          = nPos + (j' + 1) * (channels * SAMPLESIZE) := by ring
      have h := ih j' (nPos + channels * SAMPLESIZE)
        (mixFrame tracks buf channels out nPos) (by omega)
      rw [hidx, hpos] at h
      have hne1 : nPos / channels + 2 * (j' + 1) ≠ nPos / channels := by omega
      have hne2 : nPos / channels + 2 * (j' + 1) ≠ nPos / channels + 1 := by omega
      have hne3 : nPos / channels + 2 * (j' + 1) + 1 ≠ nPos / channels := by omega
      have hne4 : nPos / channels + 2 * (j' + 1) + 1 ≠ nPos / channels + 1 := by omega
      rw [mixFrame_ne tracks buf channels out nPos _ hne1 hne2,
          mixFrame_ne tracks buf channels out nPos _ hne3 hne4] at h
      exact h

theorem chainA_tracksC3 (buf : List Nat) (nPos : Nat) :
    chainA tracksC3 buf nPos (List.range 2) 0
      = int16OfU16 (readSampleU16 buf nPos) := by
  show wrap16 (wrap16 (0 + (getTrack tracksC3 0).MixA
      (int16OfU16 (readSampleU16 buf (nPos + SAMPLESIZE * 0))))
      + (getTrack tracksC3 1).MixA
        (int16OfU16 (readSampleU16 buf (nPos + SAMPLESIZE * 1)))) = _
  have h0 : (getTrack tracksC3 0).MixA
      (int16OfU16 (readSampleU16 buf (nPos + SAMPLESIZE * 0)))
      = int16OfU16 (readSampleU16 buf nPos) := by
    simp [getTrack, tracksC3, Track.MixA, asr, Int.fdiv_one]
  have h1 : (getTrack tracksC3 1).MixA
      (int16OfU16 (readSampleU16 buf (nPos + SAMPLESIZE * 1))) = 0 := by
    simp [getTrack, tracksC3, Track.MixA]
  rw [h0, h1, Int.zero_add, Int.add_zero, int16OfU16, wrap16_wrap16, wrap16_wrap16]

theorem chainB_tracksC3 (buf : List Nat) (nPos : Nat) :
    chainB tracksC3 buf nPos (List.range 2) 0
      = int16OfU16 (readSampleU16 buf (nPos + 2)) := by
  show wrap16 (wrap16 (0 + (getTrack tracksC3 0).MixB
      (int16OfU16 (readSampleU16 buf (nPos + SAMPLESIZE * 0))))
      + (getTrack tracksC3 1).MixB
        (int16OfU16 (readSampleU16 buf (nPos + SAMPLESIZE * 1)))) = _
  have h0 : (getTrack tracksC3 0).MixB
      (int16OfU16 (readSampleU16 buf (nPos + SAMPLESIZE * 0))) = 0 := by
    simp [getTrack, tracksC3, Track.MixB]
  have h1 : (getTrack tracksC3 1).MixB
      (int16OfU16 (readSampleU16 buf (nPos + SAMPLESIZE * 1)))
      = int16OfU16 (readSampleU16 buf (nPos + 2)) := by
    simp [getTrack, tracksC3, Track.MixB, asr, Int.fdiv_one, SAMPLESIZE]
  rw [h0, h1, Int.zero_add]
  have hw : wrap16 (0 : Int) = 0 := wrap16_eq_self 0 (by norm_num) (by norm_num)
  rw [hw, Int.zero_add, int16OfU16, wrap16_wrap16]

/-- C3: for a two-channel file with track 0 at attenuation 0 on bus A
and muted-off bus B (16), and track 1 symmetric, every complete frame of
a played period reaches the stereo output int-for-int: slot 2t of the
write buffer is the little-endian decoded int16 sample of channel 0 of
frame t, and slot 2t+1 that of channel 1. -/
theorem playback_two_channel_routing (buf : List Nat) (t : Nat)
    (ht : 4 * t + 4 ≤ buf.length) :
    playMix tracksC3 buf 2 (2 * t) = int16OfU16 (readSampleU16 buf (4 * t)) ∧
    playMix tracksC3 buf 2 (2 * t + 1)
      = int16OfU16 (readSampleU16 buf (4 * t + 2)) := by
  have hch : (0 : Nat) < 2 := by norm_num
  have hk : t < cldiv buf.length (2 * SAMPLESIZE) := by
    simp only [cldiv, SAMPLESIZE]
    omega
  have h := playFrames_val tracksC3 buf 2 hch (cldiv buf.length (2 * SAMPLESIZE))
    t 0 (fun _ => 0) hk
  have hidx : 0 / 2 + 2 * t = 2 * t := by omega
  have hpos : 0 + t * (2 * SAMPLESIZE) = 4 * t := by
    simp only [SAMPLESIZE]
    omega
  rw [hidx, hpos, chainA_tracksC3, chainB_tracksC3] at h
  exact h

/-- Witness for C3 at a concrete two-frame buffer and frame index 1. -/
theorem playback_two_channel_routing_witness :
    4 * 1 + 4 ≤ ([0, 64, 1, 128, 2, 3, 4, 5] : List Nat).length ∧
    (playMix tracksC3 [0, 64, 1, 128, 2, 3, 4, 5] 2 (2 * 1)
        = int16OfU16 (readSampleU16 [0, 64, 1, 128, 2, 3, 4, 5] (4 * 1)) ∧
      playMix tracksC3 [0, 64, 1, 128, 2, 3, 4, 5] 2 (2 * 1 + 1)
        = int16OfU16 (readSampleU16 [0, 64, 1, 128, 2, 3, 4, 5] (4 * 1 + 2))) :=
  ⟨by decide, playback_two_channel_routing [0, 64, 1, 128, 2, 3, 4, 5] 1 (by decide)⟩

/-- C2: the mixer accumulates in the int16_t write buffer and wraps on
overflow.  With two unmuted unity-gain tracks both playing sample
16384, the stored A-bus sample is -32768 (wrap-around), while the
saturating 32-bit accumulator the spec requires would store 32767. -/
theorem mixer_accumulator_wraps :
    playMix tracksC2 bufC2 2 0 = -32768 ∧ satMixA tracksC2 bufC2 0 2 = 32767 := by
  decide

/-- C4: opening an empty (or freshly created, hence empty) project file
fails with the too-small diagnostic of source line 523; no header is
created. -/
theorem open_empty_file_fails : openFile [] = OpenResult.err OpenError.tooSmall := by
  decide

/-- C5: opening a well-formed WAV file whose fmt chunk declares 17
channels succeeds; the MAX_TRACKS check of source lines 561-564 has an
empty body, so the session starts with 17 channels. -/
theorem open_seventeen_channels_accepted :
    openFile wav17 = OpenResult.ok ⟨17, 44100, 44, 44, 0⟩ ∧ MAX_TRACKS < 17 := by
  decide

set_option maxRecDepth 40000 in
/-- C1: with armA = 0 and armB = 2 on a four-channel file, one overdub
period leaves the armB column (bytes 48-49 of the first frame, value
5, 6) bitwise unchanged and instead overwrites bytes 46-47 -- the
column of unarmed track 1 -- with the B-leg capture bytes 102, 103:
the destination of the B copy at source line 882 is computed from
g_nRecA. -/
theorem overdub_writes_wrong_column :
    (recordStep stateC1 fileC1 capC1).getD 46 0 = 102 ∧
    (recordStep stateC1 fileC1 capC1).getD 47 0 = 103 ∧
    (recordStep stateC1 fileC1 capC1).getD 48 0 = 5 ∧
    (recordStep stateC1 fileC1 capC1).getD 49 0 = 6 ∧
    fileC1.getD 46 0 = 3 ∧ fileC1.getD 47 0 = 4 ∧
    fileC1.getD 48 0 = 5 ∧ fileC1.getD 49 0 = 6 := by
  decide

set_option maxRecDepth 40000 in
/-- Counterexample for C8: a one-channel 100-frame file played from
head 0 advances the head to 128, beyond lastFrame = 100, because the
head advances by a whole period whenever the read returned any bytes. -/
theorem head_overshoots_last_frame :
    playStepHead fileC8 44 2 0 256 = 128 ∧ lastFrameOf 244 44 2 = 100 := by
  decide

/-- Counterexample for C6: from the initial state, toggling arm A on
track 3 and then arm B on track 3 leaves both arms holding track 3. -/
theorem arm_both_same_track :
    (runArms armState0 [ArmCmd.armA 3, ArmCmd.armB 3]).recA = 3 ∧
    (runArms armState0 [ArmCmd.armA 3, ArmCmd.armB 3]).recB = 3 := by
  decide

/-- Counterexample for C9: the saved line list for a one-track session
is exactly the three track lines followed by the Pos line; no line
carries the Rof key (the Rof write at source line 1000 is commented
out). -/
theorem save_writes_no_rof_line :
    (saveLines [⟨3, 4, false, false⟩] 7).map (fun l => l.take 4)
      = [[48, 48, 76, 61], [48, 48, 82, 61], [48, 48, 77, 61], posKey] := by
  decide

/-- C7: in PLAY with record-enable off, the record path returns at its
second guard and the per-period loop performs no file write; the Play
side only reads.  The file bytes are unchanged. -/
theorem play_without_record_preserves_file (s : MTState) (file cap : List Nat)
    (h1 : s.transport = TC_PLAY) (h2 : s.recordEnabled = false) :
    recordStep s file cap = file := by
  unfold recordStep
  rw [h2]
  simp

/-- Witness for C7 at the concrete C1 session with record-enable off. -/
theorem play_without_record_preserves_file_witness :
    ({ stateC1 with recordEnabled := false } : MTState).transport = TC_PLAY ∧
    ({ stateC1 with recordEnabled := false } : MTState).recordEnabled = false ∧
    recordStep { stateC1 with recordEnabled := false } fileC1 capC1 = fileC1 :=
  ⟨by decide, by decide,
    play_without_record_preserves_file { stateC1 with recordEnabled := false }
      fileC1 capC1 (by decide) (by decide)⟩

/-- C8 (amended): seek commands clamp their target into the range from
0 to lastFrame; during playback, a head that satisfies the invariant
advances by at most one whole period, so it stays at or below
lastFrame + 128 (but may exceed lastFrame after a short final read,
see the counterexample). -/
theorem seek_clamps_and_head_bounded (lastFrame target head : Int) (n : Nat)
    (h0 : 0 ≤ lastFrame) (h1 : 0 ≤ head) (h2 : head ≤ lastFrame) :
    (0 ≤ setPlayHead lastFrame target ∧ setPlayHead lastFrame target ≤ lastFrame) ∧
    (0 ≤ playAdvanceHead head n ∧
      playAdvanceHead head n ≤ lastFrame + (PERIOD_SIZE : Int)) := by
  unfold setPlayHead playAdvanceHead
  simp only [PERIOD_SIZE]
  constructor
  · split_ifs <;> omega
  · split_ifs <;> omega

/-- Witness for C8 (amended) at lastFrame 100, target 300, head 96. -/
theorem seek_clamps_and_head_bounded_witness :
    ((0 : Int) ≤ 100 ∧ (0 : Int) ≤ 96 ∧ (96 : Int) ≤ 100) ∧
    ((0 ≤ setPlayHead 100 300 ∧ setPlayHead 100 300 ≤ 100) ∧
      (0 ≤ playAdvanceHead 96 200 ∧
        playAdvanceHead 96 200 ≤ 100 + (PERIOD_SIZE : Int))) :=
  ⟨by decide,
    seek_clamps_and_head_bounded 100 300 96 200 (by decide) (by decide) (by decide)⟩

theorem closeRecord_recordEnabled (s : MTState) :
    (closeRecord s).recordEnabled = s.recordEnabled := by
  unfold closeRecord
  by_cases h1 : s.recA > -1 <;> by_cases h2 : s.recB > -1 <;> simp [h1, h2]

theorem closeRecord_transport (s : MTState) :
    (closeRecord s).transport = s.transport := by
  unfold closeRecord
  by_cases h1 : s.recA > -1 <;> by_cases h2 : s.recB > -1 <;> simp [h1, h2]

/-- C10: the space key in PLAY stops the transport and clears the
record-enable flag; record-enable never survives a Stop. -/
theorem stop_clears_record_enable (s : MTState) (h : s.transport = TC_PLAY) :
    (handleSpace s).recordEnabled = false ∧ (handleSpace s).transport = TC_STOP := by
  unfold handleSpace
  rw [h]
  rw [if_neg (by norm_num [TC_PLAY, TC_STOP]), if_pos rfl]
  constructor
  · simp [closeRecord_recordEnabled]
  · simp [closeRecord_transport]

/-- Witness for C10 at the concrete armed session in PLAY. -/
theorem stop_clears_record_enable_witness :
    ({ armState0 with transport := TC_PLAY } : MTState).transport = TC_PLAY ∧
    ((handleSpace { armState0 with transport := TC_PLAY }).recordEnabled = false ∧
      (handleSpace { armState0 with transport := TC_PLAY }).transport = TC_STOP) :=
  ⟨by decide, stop_clears_record_enable { armState0 with transport := TC_PLAY }
    (by decide)⟩

theorem closeRecord_recA (s : MTState) : (closeRecord s).recA = s.recA := by
  unfold closeRecord
  by_cases h1 : s.recA > -1 <;> by_cases h2 : s.recB > -1 <;> simp [h1, h2]

theorem closeRecord_recB (s : MTState) : (closeRecord s).recB = s.recB := by
  unfold closeRecord
  by_cases h1 : s.recA > -1 <;> by_cases h2 : s.recB > -1 <;> simp [h1, h2]

theorem closeRecord_channels (s : MTState) : (closeRecord s).channels = s.channels := by
  unfold closeRecord
  by_cases h1 : s.recA > -1 <;> by_cases h2 : s.recB > -1 <;> simp [h1, h2]

theorem toggleRecA_fields (s : MTState) (sel : Int) :
    ((toggleRecA s sel).recA = -1 ∨ (toggleRecA s sel).recA = sel) ∧
    (toggleRecA s sel).recB = s.recB ∧
    (toggleRecA s sel).channels = s.channels := by
  unfold toggleRecA
  by_cases h : s.recA = sel <;>
    by_cases ha : s.recA > -1 <;>
      by_cases hp : s.pcmRecordOpen <;>
        simp [h, ha, hp] <;>
          split_ifs <;>
            simp [closeRecord_recA, closeRecord_recB, closeRecord_channels]

theorem toggleRecB_fields (s : MTState) (sel : Int) :
    ((toggleRecB s sel).recB = -1 ∨ (toggleRecB s sel).recB = sel) ∧
    (toggleRecB s sel).recA = s.recA ∧
    (toggleRecB s sel).channels = s.channels := by
  unfold toggleRecB
  by_cases h : s.recB = sel <;>
    by_cases ha : s.recB > -1 <;>
      by_cases hp : s.pcmRecordOpen <;>
        simp [h, ha, hp] <;>
          split_ifs <;>
            simp [closeRecord_recA, closeRecord_recB, closeRecord_channels]

theorem applyArm_channels (s : MTState) (c : ArmCmd) :
    (applyArm s c).channels = s.channels := by
  cases c with
  | armA sel => exact (toggleRecA_fields s sel).2.2
  | armB sel => exact (toggleRecB_fields s sel).2.2

theorem applyArm_inv (s : MTState) (c : ArmCmd)
    (hA : s.recA = -1 ∨ (0 ≤ s.recA ∧ s.recA < (s.channels : Int)))
    (hB : s.recB = -1 ∨ (0 ≤ s.recB ∧ s.recB < (s.channels : Int)))
    (hsel : 0 ≤ c.sel ∧ c.sel < (s.channels : Int)) :
    ((applyArm s c).recA = -1 ∨
      (0 ≤ (applyArm s c).recA ∧ (applyArm s c).recA < (s.channels : Int))) ∧
    ((applyArm s c).recB = -1 ∨
      (0 ≤ (applyArm s c).recB ∧ (applyArm s c).recB < (s.channels : Int))) := by
  cases c with
  | armA sel =>
    rcases toggleRecA_fields s sel with ⟨h1, h2, _⟩
    constructor
    · rcases h1 with h1 | h1
      · exact Or.inl h1
      · refine Or.inr ?_
        rw [show (applyArm s (ArmCmd.armA sel)).recA = sel from h1]
        exact hsel
    · rw [show (applyArm s (ArmCmd.armA sel)).recB = s.recB from h2]
      exact hB
  | armB sel =>
    rcases toggleRecB_fields s sel with ⟨h1, h2, _⟩
    constructor
    · rw [show (applyArm s (ArmCmd.armB sel)).recA = s.recA from h2]
      exact hA
    · rcases h1 with h1 | h1
      · exact Or.inl h1
      · refine Or.inr ?_
        rw [show (applyArm s (ArmCmd.armB sel)).recB = sel from h1]
        exact hsel

/-- C6 (amended): after any sequence of arm commands on in-range
selected tracks, each arm independently holds either no track (-1) or
an in-range track index; the two arms are not kept distinct and may
hold the same track (see the counterexample). -/
theorem arm_commands_range_invariant (cmds : List ArmCmd) (s : MTState)
    (hA : s.recA = -1 ∨ (0 ≤ s.recA ∧ s.recA < (s.channels : Int)))
    (hB : s.recB = -1 ∨ (0 ≤ s.recB ∧ s.recB < (s.channels : Int)))
    (hc : ∀ c ∈ cmds, 0 ≤ c.sel ∧ c.sel < (s.channels : Int)) :
    ((runArms s cmds).recA = -1 ∨
      (0 ≤ (runArms s cmds).recA ∧
        (runArms s cmds).recA < (s.channels : Int))) ∧
    ((runArms s cmds).recB = -1 ∨
      (0 ≤ (runArms s cmds).recB ∧
        (runArms s cmds).recB < (s.channels : Int))) := by
  induction cmds generalizing s with
  | nil => exact ⟨hA, hB⟩
  | cons c cmds ih =>
    have hstep := applyArm_inv s c hA hB (hc c (List.mem_cons_self c cmds))
    have hch := applyArm_channels s c
    have h := ih (applyArm s c) (by rw [hch]; exact hstep.1) (by rw [hch]; exact hstep.2)
      (by intro d hd; rw [hch]; exact hc d (List.mem_cons_of_mem c hd))
    rw [show runArms s (c :: cmds) = runArms (applyArm s c) cmds from rfl]
    rw [hch] at h
    exact h

/-- Witness for C6 (amended): a concrete command sequence on the
initial sixteen-track session. -/
theorem arm_commands_range_invariant_witness :
    ((armState0.recA = -1 ∨ (0 ≤ armState0.recA ∧ armState0.recA < (armState0.channels : Int))) ∧
      (armState0.recB = -1 ∨ (0 ≤ armState0.recB ∧ armState0.recB < (armState0.channels : Int)))) ∧
    (((runArms armState0 [ArmCmd.armA 3, ArmCmd.armB 3]).recA = -1 ∨
        (0 ≤ (runArms armState0 [ArmCmd.armA 3, ArmCmd.armB 3]).recA ∧
          (runArms armState0 [ArmCmd.armA 3, ArmCmd.armB 3]).recA < (armState0.channels : Int))) ∧
      ((runArms armState0 [ArmCmd.armA 3, ArmCmd.armB 3]).recB = -1 ∨
        (0 ≤ (runArms armState0 [ArmCmd.armA 3, ArmCmd.armB 3]).recB ∧
          (runArms armState0 [ArmCmd.armA 3, ArmCmd.armB 3]).recB < (armState0.channels : Int)))) :=
  ⟨⟨by decide, by decide⟩,
    arm_commands_range_invariant [ArmCmd.armA 3, ArmCmd.armB 3] armState0
      (by decide) (by decide)
      (by intro c hc; fin_cases hc <;> exact ⟨by decide, by decide⟩)⟩

/-! ## Lemmas: decimal rendering and atoi -/

theorem natDecAux_stable :
    ∀ (f1 : Nat), ∀ (f2 n : Nat), n < f1 → n < f2 →
      natDecAux f1 n = natDecAux f2 n := by
  intro f1
  induction f1 with
  | zero => intro f2 n h1 _; omega
  | succ f1 ih =>
    intro f2 n h1 h2
    match f2 with
    | 0 => omega
    | f2 + 1 =>
      show natDecAux (f1 + 1) n = natDecAux (f2 + 1) n
      by_cases hn : n < 10
      · simp [natDecAux, hn]
      · have hd : n / 10 < n := Nat.div_lt_self (by omega) (by omega)
        simp only [natDecAux, hn, if_false]
        rw [ih f2 (n / 10) (by omega) (by omega)]

theorem natDecAux_succ (fuel n : Nat) :
    natDecAux (fuel + 1) n
      = if n < 10 then [48 + n] else natDecAux fuel (n / 10) ++ [48 + n % 10] := rfl

theorem natDec_small (n : Nat) (h : n < 10) : natDec n = [48 + n] := by
  simp [natDec, natDecAux, h]

theorem natDec_step (n : Nat) (h : ¬ n < 10) :
    natDec n = natDec (n / 10) ++ [48 + n % 10] := by
  have hd : n / 10 < n := Nat.div_lt_self (by omega) (by omega)
  show natDecAux (n + 1) n = natDecAux (n / 10 + 1) (n / 10) ++ [48 + n % 10]
  rw [natDecAux_succ, if_neg h,
    natDecAux_stable n (n / 10 + 1) (n / 10) (by omega) (by omega)]

theorem natDecAux_digits :
    ∀ (fuel n : Nat), n < fuel → ∀ b ∈ natDecAux fuel n, 48 ≤ b ∧ b ≤ 57 := by
  intro fuel
  induction fuel with
  | zero => intro n h; omega
  | succ fuel ih =>
    intro n h b hb
    by_cases hn : n < 10
    · simp [natDecAux, hn] at hb
      omega
    · have hd : n / 10 < n := Nat.div_lt_self (by omega) (by omega)
      simp only [natDecAux, hn, if_false, List.mem_append, List.mem_singleton] at hb
      rcases hb with hb | hb
      · exact ih (n / 10) (by omega) b hb
      · have := Nat.mod_lt n (show 0 < 10 by omega)
        omega

theorem natDec_digits (n : Nat) : ∀ b ∈ natDec n, 48 ≤ b ∧ b ≤ 57 :=
  natDecAux_digits (n + 1) n (by omega)

theorem natDec_ne_nil (n : Nat) : natDec n ≠ [] := by
  by_cases h : n < 10
  · rw [natDec_small n h]; simp
  · rw [natDec_step n h]; simp

theorem atoiDigits_natDecAux :
    ∀ (fuel n : Nat), n < fuel → ∀ (acc : Int) (rest : List Nat),
      atoiDigits acc (natDecAux fuel n ++ rest)
        = atoiDigits (acc * 10 ^ (natDecAux fuel n).length + n) rest := by
  intro fuel
  induction fuel with
  | zero => intro n h; omega
  | succ fuel ih =>
    intro n h acc rest
    by_cases hn : n < 10
    · simp only [natDecAux, hn, if_true, List.singleton_append, List.length_singleton]
      have hd : isDigitByte (48 + n) = true := by
        simp [isDigitByte]
        omega
      simp only [atoiDigits, hd, if_true]
      have hcast : ((48 + n : Nat) : Int) - 48 = (n : Int) := by
        push_cast
        ring
      rw [hcast]
      norm_num
    · have hdlt : n / 10 < n := Nat.div_lt_self (by omega) (by omega)
      simp only [natDecAux, hn, if_false]
      rw [List.append_assoc, ih (n / 10) (by omega) acc _]
      have hd : isDigitByte (48 + n % 10) = true := by
        have := Nat.mod_lt n (show 0 < 10 by omega)
        simp [isDigitByte]
        omega
      simp only [List.singleton_append, atoiDigits, hd, if_true]
      have harg : (acc * 10 ^ (natDecAux fuel (n / 10)).length + ↑(n / 10)) * 10
          + (((48 + n % 10 : Nat) : Int) - 48)
          = acc * 10 ^ (natDecAux fuel (n / 10) ++ [48 + n % 10]).length + (n : Int) := by
        have hn10 : (n : Int) = 10 * ((n / 10 : Nat) : Int) + ((n % 10 : Nat) : Int) := by
          exact_mod_cast (Nat.div_add_mod n 10).symm
        rw [List.length_append, List.length_singleton, pow_succ, hn10]
        push_cast
        ring
      rw [harg]
      rfl

theorem atoiDigits_natDec (n : Nat) (acc : Int) (rest : List Nat) :
    atoiDigits acc (natDec n ++ rest)
      = atoiDigits (acc * 10 ^ (natDec n).length + n) rest :=
  atoiDigits_natDecAux (n + 1) n (by omega) acc rest

theorem atoi_digit_head (b : Nat) (bs : List Nat) (hb : 48 ≤ b ∧ b ≤ 57) :
    atoi (b :: bs) = atoiDigits 0 (b :: bs) := by
  have hsp : isSpaceByte b = false := by
    simp [isSpaceByte]
    omega
  unfold atoi
  simp only [skipSpaces, hsp, Bool.false_eq_true, if_false]
  rw [if_neg (by omega), if_neg (by omega)]

theorem atoiDigits_natDec_nl (n : Nat) :
    atoiDigits 0 (natDec n ++ [10]) = n := by
  rw [atoiDigits_natDec n 0 [10]]
  simp only [atoiDigits, isDigitByte]
  norm_num

theorem atoi_natDec (n : Nat) : atoi (natDec n ++ [10]) = n := by
  rcases h : natDec n with _ | ⟨b, bs⟩
  · exact absurd h (natDec_ne_nil n)
  · have hb : 48 ≤ b ∧ b ≤ 57 := by
      apply natDec_digits n
      rw [h]
      exact List.mem_cons_self b bs
    have key := atoiDigits_natDec_nl n
    rw [h] at key
    show atoi (b :: (bs ++ [10])) = (n : Int)
    rw [atoi_digit_head b (bs ++ [10]) hb]
    exact key

theorem atoi_intDec (v : Int) : atoi (intDec v ++ [10]) = v := by
  by_cases hv : v < 0
  · have hshape : intDec v ++ [10] = 45 :: (natDec (-v).toNat ++ [10]) := by
      simp [intDec, hv]
    rw [hshape]
    unfold atoi
    simp only [skipSpaces, show isSpaceByte 45 = false from rfl,
      Bool.false_eq_true, if_false]
    simp [atoiDigits_natDec_nl]
    omega
  · have hshape : intDec v ++ [10] = natDec v.toNat ++ [10] := by
      simp [intDec, hv]
    rw [hshape, atoi_natDec v.toNat]
    omega

/-! ## Lemmas: the config line parser on saved lines -/

theorem getTrack_set_same (l : List Track) (i : Nat) (x : Track)
    (h : i < l.length) : getTrack (l.set i x) i = x := by
  unfold getTrack
  simp [List.getD_eq_getElem?_getD, List.getElem?_set_self, h]

theorem cfgKeys_putCfg (old t : Track) : cfgKeys (putCfg old t) = cfgKeys t := rfl

theorem lineL_shape (i : Nat) (t : Track) :
    lineL i t
      = (48 + i / 10) :: (48 + i % 10) :: 76 :: 61 :: (intDec t.nMonMixA ++ [10]) := by
  simp [lineL, fmt2]

theorem lineR_shape (i : Nat) (t : Track) :
    lineR i t
      = (48 + i / 10) :: (48 + i % 10) :: 82 :: 61 :: (intDec t.nMonMixB ++ [10]) := by
  simp [lineR, fmt2]

theorem lineM_shape (i : Nat) (t : Track) :
    lineM i t
      = (48 + i / 10) :: (48 + i % 10) :: 77 :: 61
          :: (if t.bMute then [49, 10] else [48, 10]) := by
  by_cases h : t.bMute <;> simp [lineM, fmt2, h]

theorem parseLine_lineL (channels : Nat) (cfg : Cfg) (i : Nat) (t : Track)
    (hi : i < channels) (hch : channels ≤ 100) :
    parseLine channels cfg (lineL i t)
      = { cfg with tracks := cfg.tracks.set i ({ getTrack cfg.tracks i with nMonMixA := t.nMonMixA }) } := by
  have hi100 : i < 100 := lt_of_lt_of_le hi hch
  have hd1 : i / 10 ≤ 9 := by omega
  have hd2 : i % 10 ≤ 9 := by omega
  have hg1 : (0 : Int) ≤ (i : Int) := Int.natCast_nonneg i
  have hg2 : (i : Int) < (channels : Int) := by exact_mod_cast hi
  have hnotpos : ([48 + i / 10, 48 + i % 10, 76, 61] : List Nat) ≠ posKey := by
    simp [posKey]
  have hnotrof : ([48 + i / 10, 48 + i % 10, 76, 61] : List Nat) ≠ rofKey := by
    simp [rofKey]
  rw [lineL_shape]
  have hlen : ¬ ((48 + i / 10) :: (48 + i % 10) :: 76 :: 61
      :: (intDec t.nMonMixA ++ [10])).length < 5 := by
    simp only [List.length_cons, List.length_append, List.length_singleton]
    omega
  unfold parseLine
  rw [if_neg hlen]
  simp only [List.getD_cons_zero, List.getD_cons_succ, List.drop_succ_cons,
    List.drop_zero, List.take_succ_cons, List.take_zero]
  have hnch : (((48 + i / 10 : Nat) : Int) - 48) * 10 + (((48 + i % 10 : Nat) : Int) - 48)
      = (i : Int) := by
    push_cast
    omega
  rw [hnch]
  simp [hg1, hg2, hnotpos, hnotrof, atoi_intDec, Int.toNat_natCast]

theorem parseLine_lineR (channels : Nat) (cfg : Cfg) (i : Nat) (t : Track)
    (hi : i < channels) (hch : channels ≤ 100) :
    parseLine channels cfg (lineR i t)
      = { cfg with tracks := cfg.tracks.set i ({ getTrack cfg.tracks i with nMonMixB := t.nMonMixB }) } := by
  have hi100 : i < 100 := lt_of_lt_of_le hi hch
  have hd1 : i / 10 ≤ 9 := by omega
  have hd2 : i % 10 ≤ 9 := by omega
  have hg1 : (0 : Int) ≤ (i : Int) := Int.natCast_nonneg i
  have hg2 : (i : Int) < (channels : Int) := by exact_mod_cast hi
  have hnotpos : ([48 + i / 10, 48 + i % 10, 82, 61] : List Nat) ≠ posKey := by
    simp [posKey]
  have hnotrof : ([48 + i / 10, 48 + i % 10, 82, 61] : List Nat) ≠ rofKey := by
    simp [rofKey]
  rw [lineR_shape]
  have hlen : ¬ ((48 + i / 10) :: (48 + i % 10) :: 82 :: 61
      :: (intDec t.nMonMixB ++ [10])).length < 5 := by
    simp only [List.length_cons, List.length_append, List.length_singleton]
    omega
  unfold parseLine
  rw [if_neg hlen]
  simp only [List.getD_cons_zero, List.getD_cons_succ, List.drop_succ_cons,
    List.drop_zero, List.take_succ_cons, List.take_zero]
  have hnch : (((48 + i / 10 : Nat) : Int) - 48) * 10 + (((48 + i % 10 : Nat) : Int) - 48)
      = (i : Int) := by
    push_cast
    omega
  rw [hnch]
  simp [hg1, hg2, hnotpos, hnotrof, atoi_intDec, Int.toNat_natCast]

theorem parseLine_lineM (channels : Nat) (cfg : Cfg) (i : Nat) (t : Track)
    (hi : i < channels) (hch : channels ≤ 100) :
    parseLine channels cfg (lineM i t)
      = { cfg with tracks := cfg.tracks.set i ({ getTrack cfg.tracks i with bMute := t.bMute }) } := by
  have hi100 : i < 100 := lt_of_lt_of_le hi hch
  have hd1 : i / 10 ≤ 9 := by omega
  have hd2 : i % 10 ≤ 9 := by omega
  have hg1 : (0 : Int) ≤ (i : Int) := Int.natCast_nonneg i
  have hg2 : (i : Int) < (channels : Int) := by exact_mod_cast hi
  have hnotpos : ([48 + i / 10, 48 + i % 10, 77, 61] : List Nat) ≠ posKey := by
    simp [posKey]
  have hnotrof : ([48 + i / 10, 48 + i % 10, 77, 61] : List Nat) ≠ rofKey := by
    simp [rofKey]
  rw [lineM_shape]
  have hlen : ¬ ((48 + i / 10) :: (48 + i % 10) :: 77 :: 61
      :: (if t.bMute then [49, 10] else [48, 10])).length < 5 := by
    by_cases hm : t.bMute <;> simp [hm]
  unfold parseLine
  rw [if_neg hlen]
  simp only [List.getD_cons_zero, List.getD_cons_succ, List.drop_succ_cons,
    List.drop_zero, List.take_succ_cons, List.take_zero]
  have hnch : (((48 + i / 10 : Nat) : Int) - 48) * 10 + (((48 + i % 10 : Nat) : Int) - 48)
      = (i : Int) := by
    push_cast
    omega
  rw [hnch]
  by_cases hm : t.bMute <;>
    simp [hg1, hg2, hnotpos, hnotrof, Int.toNat_natCast, hm]

theorem parse_three_lines (channels : Nat) (cfg : Cfg) (i : Nat) (t : Track)
    (hi : i < channels) (hch : channels ≤ 100) (hlen : cfg.tracks.length = channels) :
    parseLine channels (parseLine channels (parseLine channels cfg (lineL i t))
        (lineR i t)) (lineM i t)
      = { cfg with tracks := cfg.tracks.set i (putCfg (getTrack cfg.tracks i) t) } := by
  have h1 : i < cfg.tracks.length := by omega
  rw [parseLine_lineL channels cfg i t hi hch]
  rw [parseLine_lineR channels _ i t hi hch]
  rw [parseLine_lineM channels _ i t hi hch]
  simp [getTrack_set_same, List.length_set, h1, List.set_set, putCfg]

theorem foldl_trackLines (channels : Nat) (hch : channels ≤ 100) :
    ∀ (ts : List Track) (i : Nat) (cfg : Cfg) (rest : List (List Nat)),
      i + ts.length ≤ channels → cfg.tracks.length = channels →
      List.foldl (parseLine channels) cfg (trackLines i ts ++ rest)
        = List.foldl (parseLine channels)
            { cfg with tracks := overwriteCfg cfg.tracks i ts } rest := by
  intro ts
  induction ts with
  | nil => intro i cfg rest _ _; rfl
  | cons t ts ih =>
    intro i cfg rest hle hlen
    show List.foldl (parseLine channels) cfg
        (lineL i t :: lineR i t :: lineM i t :: (trackLines (i + 1) ts ++ rest)) = _
    rw [List.foldl_cons, List.foldl_cons, List.foldl_cons]
    have hi : i < channels := by
      simp only [List.length_cons] at hle
      omega
    rw [parse_three_lines channels cfg i t hi hch hlen]
    rw [ih (i + 1) _ rest
      (by simp only [List.length_cons] at hle; omega)
      (by simp [List.length_set, hlen])]
    rfl

theorem parseLine_posLine (channels : Nat) (cfg : Cfg) (v : Int)
    (hch : channels ≤ 100) :
    parseLine channels cfg (posKey ++ intDec v ++ [10]) = { cfg with headPos := v } := by
  have hshape : posKey ++ intDec v ++ [10]
      = 80 :: 111 :: 115 :: 61 :: (intDec v ++ [10]) := by
    simp [posKey]
  rw [hshape]
  have hlen : ¬ ((80 : Nat) :: 111 :: 115 :: 61 :: (intDec v ++ [10])).length < 5 := by
    simp
  unfold parseLine
  rw [if_neg hlen]
  simp only [List.getD_cons_zero, List.getD_cons_succ, List.drop_succ_cons,
    List.drop_zero, List.take_succ_cons, List.take_zero]
  have hng : ¬ ((0 : Int) ≤ (((80 : Nat) : Int) - 48) * 10 + (((111 : Nat) : Int) - 48)
      ∧ (((80 : Nat) : Int) - 48) * 10 + (((111 : Nat) : Int) - 48) < (channels : Int)) := by
    intro hc
    have h2 := hc.2
    push_cast at h2
    omega
  rw [if_neg hng]
  simp [posKey, rofKey, atoi_intDec]

theorem setPlayHead_id (lastFrame p : Int) (h1 : 0 ≤ p) (h2 : p ≤ lastFrame) :
    setPlayHead lastFrame p = p := by
  unfold setPlayHead
  dsimp only
  split_ifs <;> omega

theorem overwriteCfg_length :
    ∀ (ts : List Track) (i : Nat) (l : List Track),
      (overwriteCfg l i ts).length = l.length := by
  intro ts
  induction ts with
  | nil => intro i l; rfl
  | cons t ts ih =>
    intro i l
    show (overwriteCfg (l.set i (putCfg (getTrack l i) t)) (i + 1) ts).length = _
    rw [ih]
    simp

theorem set_take_succ {α : Type} :
    ∀ (m : List α) (i : Nat) (v : α), i < m.length →
      (m.set i v).take (i + 1) = m.take i ++ [v] := by
  intro m
  induction m with
  | nil => intro i v h; simp at h
  | cons a m ih =>
    intro i v h
    match i with
    | 0 => simp
    | i + 1 =>
      simp only [List.set_cons_succ, List.take_succ_cons]
      rw [ih i v (by simpa using h)]
      rfl

theorem overwriteCfg_map :
    ∀ (ts : List Track) (i : Nat) (l : List Track), i + ts.length = l.length →
      (overwriteCfg l i ts).map cfgKeys = (l.map cfgKeys).take i ++ ts.map cfgKeys := by
  intro ts
  induction ts with
  | nil =>
    intro i l h
    show l.map cfgKeys = (l.map cfgKeys).take i ++ []
    rw [List.append_nil]
    rw [show i = (l.map cfgKeys).length from by simp at h ⊢; omega]
    rw [List.take_length]
  | cons t ts ih =>
    intro i l h
    show (overwriteCfg (l.set i (putCfg (getTrack l i) t)) (i + 1) ts).map cfgKeys = _
    rw [ih (i + 1) _ (by simp only [List.length_cons] at h; simp [List.length_set]; omega)]
    rw [List.map_set, cfgKeys_putCfg]
    rw [set_take_succ _ i _ (by simp only [List.length_cons] at h; simp; omega)]
    simp

/-- C9 (amended): SaveProject writes the three per-track keys for all
tracks in index order followed by the Pos line only (no Rof line), and
reloading the saved config restores every recognised key: the per-track
attenuation and mute values and the head position round-trip, while the
record offset comes back as the value recomputed from the declared
latencies (as it does after every load). -/
theorem load_save_load_identity (ts ts0 : List Track) (pos p0 r0 lastFrame : Int)
    (hlen : ts0.length = ts.length) (hch : ts.length ≤ MAX_TRACKS)
    (hp0 : 0 ≤ pos) (hp1 : pos ≤ lastFrame) :
    (loadProjectCfg ts.length lastFrame ⟨ts0, p0, r0⟩ (saveLines ts pos)).tracks.map cfgKeys
        = ts.map cfgKeys
    ∧ (loadProjectCfg ts.length lastFrame ⟨ts0, p0, r0⟩ (saveLines ts pos)).headPos = pos
    ∧ (loadProjectCfg ts.length lastFrame ⟨ts0, p0, r0⟩ (saveLines ts pos)).recordOffset
        = computedRecordOffset := by
  have hch100 : ts.length ≤ 100 := by
    simp only [MAX_TRACKS] at hch
    omega
  have hfold := foldl_trackLines ts.length hch100 ts 0 (⟨ts0, p0, r0⟩ : Cfg)
    [posKey ++ intDec pos ++ [10]] (by omega) (by simpa using hlen)
  unfold loadProjectCfg loadLines saveLines
  rw [hfold]
  rw [show List.foldl (parseLine ts.length)
      ({ (⟨ts0, p0, r0⟩ : Cfg) with tracks := overwriteCfg ts0 0 ts })
      [posKey ++ intDec pos ++ [10]]
    = parseLine ts.length ({ (⟨ts0, p0, r0⟩ : Cfg) with tracks := overwriteCfg ts0 0 ts })
        (posKey ++ intDec pos ++ [10]) from rfl]
  rw [parseLine_posLine ts.length _ pos hch100]
  refine ⟨?_, ?_, rfl⟩
  · show (overwriteCfg ts0 0 ts).map cfgKeys = ts.map cfgKeys
    rw [overwriteCfg_map ts 0 ts0 (by omega)]
    simp
  · show setPlayHead lastFrame pos = pos
    exact setPlayHead_id lastFrame pos hp0 hp1

/-- Witness for C9 (amended) at a concrete one-track session. -/
theorem load_save_load_identity_witness :
    (([(⟨0, 0, false, false⟩ : Track)] : List Track).length
        = ([(⟨5, 16, true, false⟩ : Track)] : List Track).length ∧
      ([(⟨5, 16, true, false⟩ : Track)] : List Track).length ≤ MAX_TRACKS ∧
      (0 : Int) ≤ 3 ∧ (3 : Int) ≤ 10) ∧
    ((loadProjectCfg ([(⟨5, 16, true, false⟩ : Track)] : List Track).length 10
        ⟨[⟨0, 0, false, false⟩], 9, 77⟩
        (saveLines [⟨5, 16, true, false⟩] 3)).tracks.map cfgKeys
          = ([(⟨5, 16, true, false⟩ : Track)] : List Track).map cfgKeys
      ∧ (loadProjectCfg ([(⟨5, 16, true, false⟩ : Track)] : List Track).length 10
          ⟨[⟨0, 0, false, false⟩], 9, 77⟩ (saveLines [⟨5, 16, true, false⟩] 3)).headPos = 3
      ∧ (loadProjectCfg ([(⟨5, 16, true, false⟩ : Track)] : List Track).length 10
          ⟨[⟨0, 0, false, false⟩], 9, 77⟩ (saveLines [⟨5, 16, true, false⟩] 3)).recordOffset
          = computedRecordOffset) :=
  ⟨⟨by decide, by decide, by decide, by decide⟩,
    load_save_load_identity [⟨5, 16, true, false⟩] [⟨0, 0, false, false⟩] 3 9 77 10
      (by decide) (by decide) (by decide) (by decide)⟩
